import Mathlib

/-
Verification of the nba-letterbox scraping scripts
(scripts/scrape_box_scores.py and scripts/scrape_players.py).

The Python sources are shallowly embedded below.  HTML documents are
modelled as already-parsed structures (tables with header and body rows,
cells carrying their data-stat attribute and stripped text), since the
parsers only interact with the markup through those accessors.  Python
exceptions that escape a function are modelled with Except Unit: an
Except.error value marks an uncaught exception, Except.ok the normal
return.  Python floats are modelled by exact rationals plus the three
non-finite values; the IEEE-754 range clamp and digit-group underscores
of the CPython parser are outside the model.
-/

set_option autoImplicit false

namespace BRef

/-! ### Python dictionaries as insertion-ordered association lists -/

/-- Python dict insertion: overwrite in place if the key exists, else append.
Mirrors CPython insertion-order semantics. -/
def dinsert {α : Type} (d : List (String × α)) (k : String) (v : α) :
    List (String × α) :=
  if d.any (fun p => p.1 = k) then
    d.map (fun p => if p.1 = k then (k, v) else p)
  else
    d ++ [(k, v)]

/-- Python dict lookup (dict.get): first entry with the key. -/
def dget {α : Type} (d : List (String × α)) (k : String) : Option α :=
  (d.find? (fun p => p.1 = k)).map (fun p => p.2)

instance {ε α : Type} [DecidableEq ε] [DecidableEq α] : DecidableEq (Except ε α) :=
  fun a b =>
    match a, b with
    | Except.ok x, Except.ok y =>
        match decEq x y with
        | isTrue h => isTrue (by rw [h])
        | isFalse h => isFalse (fun he => h (Except.ok.inj he))
    | Except.ok _, Except.error _ => isFalse (fun h => Except.noConfusion h)
    | Except.error _, Except.ok _ => isFalse (fun h => Except.noConfusion h)
    | Except.error x, Except.error y =>
        match decEq x y with
        | isTrue h => isTrue (by rw [h])
        | isFalse h => isFalse (fun he => h (Except.error.inj he))

/-! ### Character-level string primitives

Python string methods are modelled on the character list so that every
definition reduces inside the kernel.  The model covers the ASCII
behaviour exercised by the scripts. -/

/-- Whitespace stripped by str.strip() (ASCII range). -/
def isPySpace (c : Char) : Bool :=
  c = ' ' || c = '\t' || c = '\n' || c = '\r' || c = '\x0b' || c = '\x0c'

def pyStripL (l : List Char) : List Char :=
  ((l.dropWhile isPySpace).reverse.dropWhile isPySpace).reverse

/-- str.strip() -/
def pyStrip (s : String) : String := String.mk (pyStripL s.toList)

/-- str.lower() on one character (ASCII). -/
def lowerChar (c : Char) : Char :=
  if 65 ≤ c.toNat && c.toNat ≤ 90 then Char.ofNat (c.toNat + 32) else c

/-- str.lower() -/
def strLower (s : String) : String := String.mk (s.toList.map lowerChar)

/-- Does the list start with the pattern? -/
def listStartsWith : List Char → List Char → Bool
  | _, [] => true
  | [], _ :: _ => false
  | a :: l, b :: m => a = b && listStartsWith l m

/-- str.startswith(pat) -/
def pyStartsWith (s pat : String) : Bool := listStartsWith s.toList pat.toList

/-- Substring containment, the Python `pat in s` test. -/
def strHas (s pat : String) : Bool :=
  s.toList.tails.any (fun t => listStartsWith t pat.toList)

/-- One step of str.replace with fuel for termination; the pattern is
consumed non-overlapping, leftmost first, exactly as in Python. -/
def replaceFuel (pat rep : List Char) : ℕ → List Char → List Char
  | 0, l => l
  | _ + 1, [] => []
  | n + 1, c :: rest =>
      if listStartsWith (c :: rest) pat && !pat.isEmpty then
        rep ++ replaceFuel pat rep n ((c :: rest).drop pat.length)
      else
        c :: replaceFuel pat rep n rest

/-- str.replace(pat, rep) for a non-empty pattern. -/
def pyReplace (s pat rep : String) : String :=
  String.mk (replaceFuel pat.toList rep.toList s.toList.length s.toList)

/-! ### The CPython float() / int() behaviour used by safe_int and safe_float -/

/-- A Python float value: a finite number (modelled exactly as a rational)
or one of the non-finite values. -/
inductive PyF : Type
  | finite (q : ℚ)
  | inf
  | neginf
  | nan
  deriving DecidableEq

def isDigitChar (c : Char) : Bool := '0' ≤ c && c ≤ '9'

def digitsVal (l : List Char) : ℕ :=
  l.foldl (fun a c => a * 10 + (c.toNat - 48)) 0

/-- Exponent part of a float literal: optional sign then digits. -/
def parseExp (l : List Char) : Option ℤ :=
  match l with
  | '+' :: r =>
      if r.isEmpty then none
      else if r.all isDigitChar then some ((digitsVal r : ℤ)) else none
  | '-' :: r =>
      if r.isEmpty then none
      else if r.all isDigitChar then some (-(digitsVal r : ℤ)) else none
  | r =>
      if r.isEmpty then none
      else if r.all isDigitChar then some ((digitsVal r : ℤ)) else none

/-- Unsigned decimal part of a float literal: digits, optional fraction,
optional exponent.  Returns the exact rational value. -/
def parseDec (l : List Char) : Option ℚ :=
  let ip := l.takeWhile isDigitChar
  let rest := l.drop ip.length
  match rest with
  | [] => if ip.isEmpty then none else some ((digitsVal ip : ℚ))
  | '.' :: r2 =>
      let fp := r2.takeWhile isDigitChar
      let rest2 := r2.drop fp.length
      if ip.isEmpty && fp.isEmpty then none
      else
        let base : ℚ := (digitsVal ip : ℚ) + (digitsVal fp : ℚ) / ((10 : ℚ) ^ fp.length)
        match rest2 with
        | [] => some base
        | 'e' :: ex => (parseExp ex).map (fun e => base * (10 : ℚ) ^ e)
        | _ => none
  | 'e' :: ex =>
      if ip.isEmpty then none
      else (parseExp ex).map (fun e => (digitsVal ip : ℚ) * (10 : ℚ) ^ e)
  | _ => none

/-- Body of a float literal after the optional sign has been consumed
(the input is already trimmed and lowercased). -/
def pyFloatBody (l : List Char) (neg : Bool) : Option PyF :=
  if l = "inf".toList || l = "infinity".toList then
    some (if neg then PyF.neginf else PyF.inf)
  else if l = "nan".toList then some PyF.nan
  else (parseDec l).map (fun q => PyF.finite (if neg then -q else q))

/-- CPython float(s) on a string: strip whitespace, optional sign, then
inf / nan / decimal literal (case-insensitive).  none models ValueError. -/
def pyFloat (s : String) : Option PyF :=
  match (pyStripL s.toList).map lowerChar with
  | '+' :: r => pyFloatBody r false
  | '-' :: r => pyFloatBody r true
  | r => pyFloatBody r false

/-- CPython int(f) on a finite float: truncation toward zero. -/
def ratTrunc (q : ℚ) : ℤ := q.num.tdiv (q.den : ℤ)

/-- Round half to even at integer precision. -/
def halfEven (x : ℚ) : ℤ :=
  let f : ℤ := ⌊x⌋
  let r : ℚ := x - (f : ℚ)
  if r < 1 / 2 then f
  else if 1 / 2 < r then f + 1
  else if f % 2 = 0 then f else f + 1

/-- CPython round(q, 3) on the exact value: half-to-even at 3 decimals. -/
def rnd3 (q : ℚ) : ℚ := ((halfEven (q * 1000) : ℚ)) / 1000

/-- safe_int from both scripts:

    def safe_int(val):
        if val is None or str(val).strip() == "": return None
        try: return int(float(val))
        except (ValueError, TypeError): return None

int(float(val)) raises OverflowError when float(val) is infinite, and
OverflowError is not in the except clause, so that exception escapes:
modelled by Except.error.  int(nan) raises ValueError, which is caught. -/
def safe_int (val : Option String) : Except Unit (Option ℤ) :=
  match val with
  | none => Except.ok none
  | some s =>
      if pyStrip s = "" then Except.ok none
      else
        match pyFloat s with
        | none => Except.ok none
        | some (PyF.finite q) => Except.ok (some (ratTrunc q))
        | some PyF.nan => Except.ok none
        | some PyF.inf => Except.error ()
        | some PyF.neginf => Except.error ()

/-- safe_float from both scripts:

    def safe_float(val):
        if val is None or str(val).strip() == "": return None
        try: return round(float(val), 3)
        except (ValueError, TypeError): return None

round(x, 3) returns non-finite values unchanged, so no exception escapes. -/
def safe_float (val : Option String) : Option PyF :=
  match val with
  | none => none
  | some s =>
      if pyStrip s = "" then none
      else
        match pyFloat s with
        | none => none
        | some (PyF.finite q) => some (PyF.finite (rnd3 q))
        | some x => some x

/-! ### slug_to_provider_id (scrape_players.py) -/

/-- UTF-8 encoding of one character, as byte values. -/
def utf8Bytes (c : Char) : List ℕ :=
  let n := c.toNat
  if n < 128 then [n]
  else if n < 2048 then [192 + n / 64, 128 + n % 64]
  else if n < 65536 then [224 + n / 4096, 128 + (n / 64) % 64, 128 + n % 64]
  else [240 + n / 262144, 128 + (n / 4096) % 64, 128 + (n / 64) % 64, 128 + n % 64]

/-- slug.encode("utf-8") as a list of byte values. -/
def strBytes (s : String) : List ℕ :=
  s.toList.foldr (fun c acc => utf8Bytes c ++ acc) []

/-- zlib.adler32: running sums a (from 1) and b (from 0) modulo 65521,
result b * 65536 + a. -/
def adler32 (bytes : List ℕ) : ℕ :=
  let p := bytes.foldl
    (fun (st : ℕ × ℕ) (byt : ℕ) =>
      let a := (st.1 + byt) % 65521
      ((a, (st.2 + a) % 65521)))
    (1, 0)
  p.2 * 65536 + p.1

/-- def slug_to_provider_id(slug): return zlib.adler32(slug.encode("utf-8")) -/
def slug_to_provider_id (slug : String) : ℕ := adler32 (strBytes slug)

/-! ### to_bref (both scripts) -/

def ABBREV_TO_BREF : List (String × String) :=
  [("PHX", "PHO"), ("BKN", "BRK"), ("CHA", "CHO")]

/-- def to_bref(abbrev): return ABBREV_TO_BREF.get(abbrev, abbrev) -/
def to_bref (ab : String) : String :=
  (dget ABBREV_TO_BREF ab).getD ab

/-! ### The parsed-markup model

A BeautifulSoup document is modelled by the accessors the scripts use:
tables found by id, the page title text, the scorebox_meta div texts and
the text of the parent of the Attendance strong tag.  Cell text models
get_text with strip=True. -/

/-- An anchor element: its href attribute and stripped text. -/
structure Link : Type where
  href : Option String
  text : String
  deriving DecidableEq

/-- A th or td element: data-stat attribute, stripped text, whether it is
a th, and its first anchor descendant if any. -/
structure Cell : Type where
  dataStat : Option String
  text : String
  isTh : Bool
  link : Option Link
  deriving DecidableEq

/-- A tbody tr: whether its class list contains "thead" (the separator
marker) and its th/td children in document order. -/
structure BodyRow : Type where
  isSep : Bool
  cells : List Cell
  deriving DecidableEq

/-- A table: header rows of its thead (if present) and body rows of its
tbody (if present). -/
structure Table : Type where
  thead : Option (List (List Cell))
  tbody : Option (List BodyRow)
  deriving DecidableEq

/-- The document accessors used by the two scripts. -/
structure Soup : Type where
  tables : List (String × Table)
  title : Option String
  scorebox : Option (List String)
  attStrong : Option String
  deriving DecidableEq

/-- soup.find("table", id=table_id) -/
def findTable (soup : Soup) (table_id : String) : Option Table :=
  dget soup.tables table_id

/-- Texts of the td children of a row: row.find_all("td") then get_text. -/
def tdTexts (r : BodyRow) : List String :=
  (r.cells.filter (fun c => !c.isTh)).map (fun c => c.text)

/-! ### parse_box_score_table (scrape_box_scores.py) -/

/-- Column names from the last header row:
stat = th.get("data-stat", th.get_text(strip=True)) over find_all("th"). -/
def headerCols (hrow : List Cell) : List String :=
  (hrow.filter (fun c => c.isTh)).map (fun th => th.dataStat.getD th.text)

/-- row_data: for i, cell in enumerate(cells): if i < len(cols):
row_data[cols[i]] = cell.get_text(strip=True) -/
def rowData (cols : List String) (cells : List Cell) : List (String × String) :=
  (List.zip cols cells).foldl (fun d p => dinsert d p.1 p.2.text) []

/-- tr.find("td", dict with data-stat reason) is not None. -/
def hasReason (tr : BodyRow) : Bool :=
  tr.cells.any (fun c => !c.isTh && c.dataStat = some "reason")

/-- One parsed box-score row: the cell dict plus the _starter tag. -/
structure PRow : Type where
  data : List (String × String)
  starter : Bool
  deriving DecidableEq

/-- The per-row body of the loop in parse_box_score_table: none when the
row is skipped (no cells, did-not-play reason, or empty/total player
name), otherwise the row dict. -/
def rowKeep (cols : List String) (tr : BodyRow) : Option (List (String × String)) :=
  if tr.cells.isEmpty then none
  else
    let rd := rowData cols tr.cells
    if hasReason tr then none
    else
      let pname := (dget rd "player").getD ""
      if pname = "" || strLower pname = "team totals" || strLower pname = "totals" then
        none
      else some rd

/-- The tbody loop of parse_box_score_table.  The boolean argument is the
seen_reserves flag: a separator row sets it, and every emitted row is
tagged with its negation (the source also keeps a starter_count local
that is never read, omitted here). -/
def parseRows (cols : List String) : Bool → List BodyRow → List PRow
  | _, [] => []
  | seen, tr :: rest =>
      if tr.isSep then parseRows cols true rest
      else
        match rowKeep cols tr with
        | none => parseRows cols seen rest
        | some rd => { data := rd, starter := !seen } :: parseRows cols seen rest

/-- parse_box_score_table.  A missing table gives [], a missing thead
raises AttributeError (find_all on None) and an empty thead raises
IndexError (header_rows[-1]); both are modelled by Except.error.  A
missing tbody gives []. -/
def parse_box_score_table (soup : Soup) (table_id : String) :
    Except Unit (List PRow) :=
  match findTable soup table_id with
  | none => Except.ok []
  | some table =>
      match table.thead with
      | none => Except.error ()
      | some hrows =>
          match hrows.getLast? with
          | none => Except.error ()
          | some hrow =>
              let cols := headerCols hrow
              match table.tbody with
              | none => Except.ok []
              | some trs => Except.ok (parseRows cols false trs)

/-! ### parse_quarter_scores (scrape_box_scores.py) -/

/-- A Python list comprehension over a function that may raise. -/
def mapE {α β : Type} (f : α → Except Unit β) : List α → Except Unit (List β)
  | [] => Except.ok []
  | a :: l =>
      match f a with
      | Except.error e => Except.error e
      | Except.ok b =>
          match mapE f l with
          | Except.error e => Except.error e
          | Except.ok bs => Except.ok (b :: bs)

/-- The five entries contributed by one line-score row:
q1..q4 positionally (None when the cell is missing), then the overtime
entry: when the row has more than 5 cells, the cells between Q4 and the
trailing Total are summed over their non-None values, and a sum of 0 is
stored as None. -/
def prefixEntries (pre : String) (scores : List (Option ℤ)) :
    List (String × Option ℤ) :=
  [(pre ++ "_q1", scores.getD 0 none),
   (pre ++ "_q2", scores.getD 1 none),
   (pre ++ "_q3", scores.getD 2 none),
   (pre ++ "_q4", scores.getD 3 none),
   (pre ++ "_ot",
     if 5 < scores.length then
       (let tot := (((scores.drop 4).dropLast).filterMap id).sum
        if 0 < tot then some tot else none)
     else none)]

/-- parse_quarter_scores: finds the line_score table, needs at least two
body rows (away first, home second), runs safe_int over the td texts of
each and assembles the result dict.  Returns none (Python None) when the
table, tbody or rows are missing. -/
def parse_quarter_scores (soup : Soup) :
    Except Unit (Option (List (String × Option ℤ))) :=
  match findTable soup "line_score" with
  | none => Except.ok none
  | some table =>
      match table.tbody with
      | none => Except.ok none
      | some rows =>
          match rows with
          | r0 :: r1 :: _ =>
              match mapE (fun c => safe_int (some c)) (tdTexts r0) with
              | Except.error e => Except.error e
              | Except.ok away_scores =>
                  match mapE (fun c => safe_int (some c)) (tdTexts r1) with
                  | Except.error e => Except.error e
                  | Except.ok home_scores =>
                      Except.ok (some
                        (prefixEntries "away" away_scores ++
                         prefixEntries "home" home_scores))
          | _ => Except.ok none

/-! ### parse_playoff_round and parse_arena_attendance -/

/-- parse_playoff_round: lowercased title text matched against four fixed
substrings, in source order. -/
def parse_playoff_round (soup : Soup) : Option String :=
  match soup.title with
  | none => none
  | some t =>
      let tl := strLower t
      if strHas tl "first round" then some "first_round"
      else if strHas tl "conference semifinals" then some "conf_semis"
      else if strHas tl "conference finals" then some "conf_finals"
      else if strHas tl "nba finals" then some "finals"
      else none

/-- The arena branch of parse_arena_attendance: second div text of
scorebox_meta, guarded against Attendance and Logo prefixes; the text
before the first comma when one occurs (split(",")[0]), stripped. -/
def arenaOf (soup : Soup) : Option String :=
  match soup.scorebox with
  | none => none
  | some divs =>
      match divs with
      | _ :: candidate :: _ =>
          if pyStartsWith candidate "Attendance" || pyStartsWith candidate "Logo" then
            none
          else if strHas candidate "," then
            some (pyStrip (String.mk (candidate.toList.takeWhile (fun c => c ≠ ','))))
          else some (pyStrip candidate)
      | _ => none

/-- parse_arena_attendance: the arena text as above, and the attendance
from the text of the parent of the Attendance strong tag, with the label,
non-breaking spaces and thousands separators removed, through safe_int
(whose OverflowError on infinite values escapes). -/
def parse_arena_attendance (soup : Soup) :
    Except Unit (Option String × Option ℤ) :=
  let arena := arenaOf soup
  match soup.attStrong with
  | none => Except.ok (arena, none)
  | some att_text =>
      let att_str :=
        pyStrip (pyReplace (pyReplace (pyReplace att_text "Attendance:" "") "\xa0" "") "," "")
      match safe_int (some att_str) with
      | Except.error e => Except.error e
      | Except.ok n => Except.ok (arena, n)

/-! ### parse_roster (scrape_players.py) -/

/-- parse_height: strip the text, None when empty. -/
def parse_height (ht_str : String) : Option String :=
  if ht_str = "" || pyStrip ht_str = "" then none else some (pyStrip ht_str)

/-- Match of the slug pattern anchored at the head of the list:
literal "/players/", one lowercase letter, "/", then the capture group
[a-z0-9]+ followed by ".html".  Because the dot is outside the bracketed
class, the greedy group always ends at the maximal alphanumeric run. -/
def isLowerAZ (c : Char) : Bool := 'a' ≤ c && c ≤ 'z'

def lowerAlnum (c : Char) : Bool := isLowerAZ c || isDigitChar c

def matchSlugAt (l : List Char) : Option (List Char) :=
  if listStartsWith l ("/players/".toList) then
    match l.drop 9 with
    | c :: c2 :: rest =>
        if isLowerAZ c && c2 = '/' then
          let run := rest.takeWhile lowerAlnum
          if run.isEmpty then none
          else if listStartsWith (rest.drop run.length) (".html".toList) then some run
          else none
        else none
    | _ => none
  else none

/-- re.search: try each start position left to right. -/
def searchSlugL : List Char → Option (List Char)
  | [] => none
  | c :: rest =>
      match matchSlugAt (c :: rest) with
      | some r => some r
      | none => searchSlugL rest

/-- The group(1) of re.search of /players/letter/slug.html in an href. -/
def searchSlug (s : String) : Option String :=
  (searchSlugL s.toList).map String.mk

/-- The cells dict of a roster row: data-stat attribute to cell, for the
cells that carry the attribute (later duplicates overwrite). -/
def cellsDict (tr : BodyRow) : List (String × Cell) :=
  tr.cells.foldl
    (fun d c =>
      match c.dataStat with
      | none => d
      | some k => dinsert d k c)
    []

/-- name_text.split(" ", 1): the text before the first space and the
remainder (empty when there is no space). -/
def splitFirstSpace (s : String) : String × String :=
  let l := s.toList
  let before := l.takeWhile (fun c => c ≠ ' ')
  if before.length = l.length then (s, "")
  else (String.mk before, String.mk (l.drop (before.length + 1)))

/-- The record appended for one roster row.  The source also parses the
birth date but does not store it in the record. -/
structure RosterEntry : Type where
  slug : String
  first_name : String
  last_name : String
  jersey_number : Option String
  position : Option String
  height : Option String
  weight : Option String
  college : Option String
  country : Option String
  deriving DecidableEq

/-- The slug extracted from a roster row player cell: first anchor, its
href (an empty href is falsy in Python and yields no match anyway), then
the URL pattern search. -/
def slugOfCell (pc : Cell) : Option String :=
  match pc.link with
  | none => none
  | some lk =>
      match lk.href with
      | none => none
      | some h => searchSlug h

/-- The body of the roster loop for one row: none when the row is skipped
(no player cell, empty name text, or no extractable slug). -/
def rosterEntry (tr : BodyRow) : Option RosterEntry :=
  let cells := cellsDict tr
  match dget cells "player" with
  | none => none
  | some pc =>
      if pc.text = "" then none
      else
        match slugOfCell pc with
        | none => none
        | some slug =>
            let parts := splitFirstSpace pc.text
            let number_text := (dget cells "number").map (fun c => c.text)
            let pos_text := (dget cells "pos").map (fun c => c.text)
            let ht_text :=
              match dget cells "height" with
              | none => none
              | some c => parse_height c.text
            let wt_text := (dget cells "weight").map (fun c => c.text)
            let college_text :=
              match dget cells "college" with
              | none => none
              | some cc =>
                  let s :=
                    match cc.link with
                    | some l => l.text
                    | none => cc.text
                  if s = "" then none else some s
            let country_text :=
              match dget cells "birth_place" with
              | none => none
              | some cc => if cc.text = "" then none else some cc.text
            some
              { slug := slug
                first_name := parts.1
                last_name := parts.2
                jersey_number := number_text
                position := pos_text
                height := ht_text
                weight := wt_text
                college := college_text
                country := country_text }

/-- parse_roster: the #roster table body rows, skipping rows without a
player cell, name text or slug. -/
def parse_roster (soup : Soup) : List RosterEntry :=
  match findTable soup "roster" with
  | none => []
  | some table =>
      match table.tbody with
      | none => []
      | some trs => trs.filterMap rosterEntry

/-! ### scrape_game (scrape_box_scores.py) -/

/-- A value stored in the box_scores upsert dict. -/
inductive PyV : Type
  | vs (s : String)
  | vi (n : ℤ)
  | vf (f : PyF)
  | vb (b : Bool)
  | vnull
  deriving DecidableEq

/-- safe_int result as a dict value. -/
def pvInt (x : Option ℤ) : PyV :=
  match x with
  | none => PyV.vnull
  | some n => PyV.vi n

/-- safe_float result as a dict value. -/
def pvFloat (x : Option PyF) : PyV :=
  match x with
  | none => PyV.vnull
  | some f => PyV.vf f

/-- row.get("mp") or None: missing key and empty string both give None. -/
def minutesOf (rd : List (String × String)) : PyV :=
  match dget rd "mp" with
  | none => PyV.vnull
  | some m => if m = "" then PyV.vnull else PyV.vs m

/-- The dict literal appended to box_rows for one player, in source
order.  safe_int may raise (OverflowError escaping), safe_float cannot. -/
def mkBoxRow (game_id team_id player_name : String) (row : PRow)
    (adv : List (String × String)) : Except Unit (List (String × PyV)) := do
  let rd := row.data
  let pts ← safe_int (dget rd "pts")
  let trb ← safe_int (dget rd "trb")
  let orb ← safe_int (dget rd "orb")
  let drb ← safe_int (dget rd "drb")
  let ast ← safe_int (dget rd "ast")
  let stl ← safe_int (dget rd "stl")
  let blk ← safe_int (dget rd "blk")
  let tov ← safe_int (dget rd "tov")
  let fg ← safe_int (dget rd "fg")
  let fga ← safe_int (dget rd "fga")
  let fg3 ← safe_int (dget rd "fg3")
  let fg3a ← safe_int (dget rd "fg3a")
  let ft ← safe_int (dget rd "ft")
  let fta ← safe_int (dget rd "fta")
  let pf ← safe_int (dget rd "pf")
  let pm ← safe_int (dget rd "plus_minus")
  let ortg ← safe_int (dget adv "off_rtg")
  let drtg ← safe_int (dget adv "def_rtg")
  pure
    [("game_id", PyV.vs game_id),
     ("team_id", PyV.vs team_id),
     ("player_name", PyV.vs player_name),
     ("minutes", minutesOf rd),
     ("points", pvInt pts),
     ("rebounds", pvInt trb),
     ("offensive_rebounds", pvInt orb),
     ("defensive_rebounds", pvInt drb),
     ("assists", pvInt ast),
     ("steals", pvInt stl),
     ("blocks", pvInt blk),
     ("turnovers", pvInt tov),
     ("fgm", pvInt fg),
     ("fga", pvInt fga),
     ("fg_pct", pvFloat (safe_float (dget rd "fg_pct"))),
     ("tpm", pvInt fg3),
     ("tpa", pvInt fg3a),
     ("tp_pct", pvFloat (safe_float (dget rd "fg3_pct"))),
     ("ftm", pvInt ft),
     ("fta", pvInt fta),
     ("ft_pct", pvFloat (safe_float (dget rd "ft_pct"))),
     ("personal_fouls", pvInt pf),
     ("plus_minus", pvInt pm),
     ("ts_pct", pvFloat (safe_float (dget adv "ts_pct"))),
     ("efg_pct", pvFloat (safe_float (dget adv "efg_pct"))),
     ("three_par", pvFloat (safe_float (dget adv "fg3a_per_fga_pct"))),
     ("ft_rate", pvFloat (safe_float (dget adv "fta_per_fga_pct"))),
     ("orb_pct", pvFloat (safe_float (dget adv "orb_pct"))),
     ("drb_pct", pvFloat (safe_float (dget adv "drb_pct"))),
     ("trb_pct", pvFloat (safe_float (dget adv "trb_pct"))),
     ("ast_pct", pvFloat (safe_float (dget adv "ast_pct"))),
     ("stl_pct", pvFloat (safe_float (dget adv "stl_pct"))),
     ("blk_pct", pvFloat (safe_float (dget adv "blk_pct"))),
     ("tov_pct", pvFloat (safe_float (dget adv "tov_pct"))),
     ("usg_pct", pvFloat (safe_float (dget adv "usg_pct"))),
     ("offensive_rating", pvInt ortg),
     ("defensive_rating", pvInt drtg),
     ("bpm", pvFloat (safe_float (dget adv "bpm"))),
     ("starter", PyV.vb row.starter)]

/-- adv_lookup: player name to advanced row dict, for rows with a
non-empty player name (later rows overwrite). -/
def advLookup (adv_rows : List PRow) : List (String × List (String × String)) :=
  adv_rows.foldl
    (fun d arow =>
      let pname := (dget arow.data "player").getD ""
      if pname = "" then d else dinsert d pname arow.data)
    []

/-- The inner loop over basic rows: rows with an empty player name are
skipped, the rest are joined with their advanced row (empty dict when
absent) and turned into upsert dicts. -/
def collectRows (game_id team_id : String)
    (advL : List (String × List (String × String))) :
    List PRow → Except Unit (List (List (String × PyV)))
  | [] => Except.ok []
  | row :: rest =>
      let pname := (dget row.data "player").getD ""
      if pname = "" then collectRows game_id team_id advL rest
      else
        match mkBoxRow game_id team_id pname row ((dget advL pname).getD []) with
        | Except.error e => Except.error e
        | Except.ok b =>
            match collectRows game_id team_id advL rest with
            | Except.error e => Except.error e
            | Except.ok bs => Except.ok (b :: bs)

/-- One iteration of the team loop: parse the basic and advanced tables
for the team; an empty basic table contributes nothing (continue). -/
def teamRows (soup : Soup) (game_id team_id team_bref : String) :
    Except Unit (List (List (String × PyV))) :=
  match parse_box_score_table soup ("box-" ++ team_bref ++ "-game-basic") with
  | Except.error e => Except.error e
  | Except.ok basic_rows =>
      match parse_box_score_table soup ("box-" ++ team_bref ++ "-game-advanced") with
      | Except.error e => Except.error e
      | Except.ok adv_rows =>
          if basic_rows.isEmpty then Except.ok []
          else collectRows game_id team_id (advLookup adv_rows) basic_rows

/-- box_rows accumulated over the away then home team. -/
def buildBoxRows (soup : Soup) (game_id away_team_id home_team_id
    bref_away bref_home : String) :
    Except Unit (List (List (String × PyV))) :=
  match teamRows soup game_id away_team_id bref_away with
  | Except.error e => Except.error e
  | Except.ok aw =>
      match teamRows soup game_id home_team_id bref_home with
      | Except.error e => Except.error e
      | Except.ok hm => Except.ok (aw ++ hm)

/-- A value written into the games update dict. -/
inductive GVal : Type
  | gInt (n : ℤ)
  | gStr (v : String)
  deriving DecidableEq

/-- The None-valued quarter entries are dropped
(update_data.update over the items with v is not None); a None
quarter_data contributes nothing (the dict is never empty otherwise,
so Python truthiness agrees with the some test). -/
def qualifyQuarter (qd : Option (List (String × Option ℤ))) :
    List (String × GVal) :=
  match qd with
  | none => []
  | some qs => qs.filterMap (fun kv => kv.2.map (fun v => (kv.1, GVal.gInt v)))

/-- if playoff_round: update_data["playoff_round"] = playoff_round -/
def withPR (u : List (String × GVal)) (pr : Option String) :
    List (String × GVal) :=
  match pr with
  | some r => dinsert u "playoff_round" (GVal.gStr r)
  | none => u

/-- if arena: update_data["arena"] = arena (an empty string is falsy). -/
def withArena (u : List (String × GVal)) (arena : Option String) :
    List (String × GVal) :=
  match arena with
  | some a => if a = "" then u else dinsert u "arena" (GVal.gStr a)
  | none => u

/-- if attendance: update_data["attendance"] = attendance (0 is falsy). -/
def withAtt (u : List (String × GVal)) (att : Option ℤ) :
    List (String × GVal) :=
  match att with
  | some n => if n = 0 then u else dinsert u "attendance" (GVal.gInt n)
  | none => u

/-- The games update dict assembled in scrape_game from the parse
results: quarter entries first, then playoff_round when matched, arena
when non-empty (Python truthiness), attendance when parsed and non-zero
(Python truthiness of int). -/
def updateFromParses (qd : Option (List (String × Option ℤ)))
    (pr : Option String) (arena : Option String) (att : Option ℤ) :
    List (String × GVal) :=
  withAtt (withArena (withPR (qualifyQuarter qd) pr) arena) att

/-- The update_data computation of scrape_game (parsers may raise
through safe_int). -/
def buildUpdate (soup : Soup) : Except Unit (List (String × GVal)) :=
  match parse_quarter_scores soup with
  | Except.error e => Except.error e
  | Except.ok qd =>
      match parse_arena_attendance soup with
      | Except.error e => Except.error e
      | Except.ok aa =>
          Except.ok (updateFromParses qd (parse_playoff_round soup) aa.1 aa.2)

/-- A write against the remote store attempted by scrape_game. -/
inductive WriteOp : Type
  | upsertBox (rows : List (List (String × PyV)))
  | updateGames (u : List (String × GVal))
  deriving DecidableEq

/-- fetch_game_page: None on a non-200 response, the parsed page
otherwise (the URL return value and the comment-unmasking text pre-pass
are not needed by the claims). -/
def fetch_game_page (status : ℕ) (page : Soup) : Option Soup :=
  if status = 200 then some page else none

/-- scrape_game: returns the success flag and the list of writes it
attempted, in order.  A failed fetch returns False before any write; an
empty box_rows list returns False before any write; a raising box-score
upsert is caught and returns False; the games update is attempted only
when update_data is non-empty, and its failure is caught without
changing the returned flag (so it does not appear as a parameter). -/
def scrape_game (fetched : Option Soup)
    (game_id away_team_id home_team_id away_abbrev home_abbrev : String)
    (upsertOk : Bool) : Except Unit (Bool × List WriteOp) :=
  let bref_away := to_bref away_abbrev
  let bref_home := to_bref home_abbrev
  match fetched with
  | none => Except.ok (false, [])
  | some soup =>
      match buildBoxRows soup game_id away_team_id home_team_id bref_away bref_home with
      | Except.error e => Except.error e
      | Except.ok box_rows =>
          if box_rows.isEmpty then Except.ok (false, [])
          else if upsertOk = false then
            Except.ok (false, [WriteOp.upsertBox box_rows])
          else
            match buildUpdate soup with
            | Except.error e => Except.error e
            | Except.ok update_data =>
                if update_data.isEmpty then
                  Except.ok (true, [WriteOp.upsertBox box_rows])
                else
                  Except.ok (true,
                    [WriteOp.upsertBox box_rows, WriteOp.updateGames update_data])

/-- The four fixed title substrings and the rounds they map to, in the
order the source tests them. -/
def playoffPatterns : List (String × String) :=
  [("first round", "first_round"),
   ("conference semifinals", "conf_semis"),
   ("conference finals", "conf_finals"),
   ("nba finals", "finals")]

/-- The slug of a roster row as the source computes it: player cell,
then its first anchor href, then the URL pattern search. -/
def rowSlug (tr : BodyRow) : Option String :=
  (dget (cellsDict tr) "player").bind slugOfCell

/-! ### Concrete pages used by the witnesses -/

/-- A page whose title matches none of the playoff patterns. -/
def soupPlainTitle : Soup :=
  { tables := [], title := some "Celtics vs Knicks Box Score", scorebox := none,
    attStrong := none }

/-- A page with no title tag. -/
def soupNoTitle : Soup :=
  { tables := [], title := none, scorebox := none, attStrong := none }

/-- A roster row whose player cell has an anchor without a matching URL. -/
def trNoSlug : BodyRow :=
  { isSep := false,
    cells := [{ dataStat := some "player", text := "John Doe", isTh := true,
                link := some { href := some "/teams/BOS/2025.html", text := "John Doe" } }] }

/-- A player-name th cell. -/
def wCellName (s : String) : Cell :=
  { dataStat := some "player", text := s, isTh := true, link := none }

/-- A stat td cell. -/
def wCellStat (k v : String) : Cell :=
  { dataStat := some k, text := v, isTh := false, link := none }

def wRowA : BodyRow := { isSep := false, cells := [wCellName "Al Ace", wCellStat "pts" "12"] }

def wRowSep : BodyRow := { isSep := true, cells := [] }

def wRowB : BodyRow := { isSep := false, cells := [wCellName "Bob Bench", wCellStat "pts" "7"] }

def wRowDNP : BodyRow :=
  { isSep := false, cells := [wCellName "Cy Cut", wCellStat "reason" "Did Not Play"] }

def wRowTot : BodyRow :=
  { isSep := false, cells := [wCellName "Team Totals", wCellStat "pts" "99"] }

def wHeader : List Cell :=
  [{ dataStat := some "player", text := "Player", isTh := true, link := none },
   { dataStat := some "pts", text := "PTS", isTh := true, link := none }]

/-- A basic box-score table with one starter, the separator, one
reserve, a did-not-play row and a totals row. -/
def wBasicTable : Table :=
  { thead := some [wHeader], tbody := some [wRowA, wRowSep, wRowB, wRowDNP, wRowTot] }

def wSoupBox : Soup :=
  { tables := [("box-AAA-game-basic", wBasicTable)], title := none,
    scorebox := none, attStrong := none }

/-- A line-score row: team th cell followed by the given td texts. -/
def wLsRow (l : List String) : BodyRow :=
  { isSep := false,
    cells := { dataStat := some "team", text := "BOS", isTh := true, link := none } ::
      l.map (fun v => wCellStat "v" v) }

/-- line_score table with two regulation rows. -/
def wSoupLs2 : Soup :=
  { tables := [("line_score",
      { thead := none,
        tbody := some [wLsRow ["25", "26", "27", "28"],
                       wLsRow ["30", "20", "10", "40"]] })],
    title := none, scorebox := none, attStrong := none }

/-- line_score table with a single body row. -/
def wSoupLs1 : Soup :=
  { tables := [("line_score",
      { thead := none, tbody := some [wLsRow ["25", "26", "27", "28"]] })],
    title := none, scorebox := none, attStrong := none }

/-- The ten keys parse_quarter_scores can produce. -/
def quarterKeys : List String :=
  ["away_q1", "away_q2", "away_q3", "away_q4", "away_ot",
   "home_q1", "home_q2", "home_q3", "home_q4", "home_ot"]

/-- A complete game page: one basic box-score table, a line score, a
playoff title, the scorebox metadata and the attendance element. -/
def wSoupGame : Soup :=
  { tables := [("box-AAA-game-basic", wBasicTable),
               ("line_score",
                { thead := none,
                  tbody := some [wLsRow ["25", "26", "27", "28"],
                                 wLsRow ["30", "20", "10", "40"]] })],
    title := some "2025 NBA Eastern Conference First Round Game 1",
    scorebox := some ["April 20, 2025", "TD Garden, Boston"],
    attStrong := some "Attendance:19,156" }

/-- The writes wSoupGame produces. -/
def wWrites : List WriteOp :=
  match scrape_game (some wSoupGame) "g1" "ta" "th" "AAA" "BBB" true with
  | Except.ok p => p.2
  | Except.error _ => []

/-- The games update wSoupGame produces. -/
def wUpdate : List (String × GVal) :=
  match buildUpdate wSoupGame with
  | Except.ok uu => uu
  | Except.error _ => []

/-! ## Theorems -/

/-- C5: the slug-to-identifier function is deterministic: two
evaluations on the same slug yield the same integer. -/
theorem claim_C5_slug_id_deterministic :
    ∀ s1 s2 : String, s1 = s2 →
      slug_to_provider_id s1 = slug_to_provider_id s2 := by
  intro s1 s2 h
  rw [h]

theorem claim_C5_witness :
    "curryst01" = "curryst01" ∧
      slug_to_provider_id "curryst01" = slug_to_provider_id "curryst01" :=
  ⟨rfl, claim_C5_slug_id_deterministic "curryst01" "curryst01" rfl⟩

/-- C1 (failing input): safe_int("inf") raises: float("inf") is
infinite, int() of it raises OverflowError, and the except clause only
catches ValueError and TypeError.  The claim says the coercions never
raise. -/
theorem claim_C1_safe_int_inf_raises :
    safe_int (some "inf") = Except.error () := rfl

/-- C6: to_bref is the identity away from the three mapped codes, fixes
the foreign codes PHO, BRK, CHO, and composed with itself equals
itself. -/
theorem claim_C6_to_bref_identity :
    (∀ a : String, a ≠ "PHX" → a ≠ "BKN" → a ≠ "CHA" → to_bref a = a) ∧
    to_bref "PHO" = "PHO" ∧ to_bref "BRK" = "BRK" ∧ to_bref "CHO" = "CHO" ∧
    (∀ a : String, to_bref (to_bref a) = to_bref a) := by
  have hid : ∀ a : String, a ≠ "PHX" → a ≠ "BKN" → a ≠ "CHA" → to_bref a = a := by
    intro a h1 h2 h3
    simp only [to_bref, dget, ABBREV_TO_BREF, List.find?]
    rw [decide_eq_false (fun h => h1 h.symm),
        decide_eq_false (fun h => h2 h.symm),
        decide_eq_false (fun h => h3 h.symm)]
    rfl
  refine ⟨hid, rfl, rfl, rfl, ?_⟩
  intro a
  by_cases h1 : a = "PHX"
  · subst h1; rfl
  by_cases h2 : a = "BKN"
  · subst h2; rfl
  by_cases h3 : a = "CHA"
  · subst h3; rfl
  rw [hid a h1 h2 h3]
  exact hid a h1 h2 h3

theorem claim_C6_witness : to_bref "BOS" = "BOS" :=
  claim_C6_to_bref_identity.1 "BOS" (by decide) (by decide) (by decide)

/-- C9: parse_playoff_round is None when the title is missing or no
fixed substring occurs (case-insensitively); any non-None result is one
of the four round values witnessed by its substring; and an occurring
substring guarantees a non-None result. -/
theorem claim_C9_playoff_round (soup : Soup) :
    (soup.title = none → parse_playoff_round soup = none) ∧
    (∀ t, soup.title = some t →
      (∀ p ∈ playoffPatterns, strHas (strLower t) p.1 = false) →
      parse_playoff_round soup = none) ∧
    (∀ r, parse_playoff_round soup = some r →
      ∃ t p, soup.title = some t ∧ p ∈ playoffPatterns ∧ p.2 = r ∧
        strHas (strLower t) p.1 = true) ∧
    (∀ t p, soup.title = some t → p ∈ playoffPatterns →
      strHas (strLower t) p.1 = true →
      ∃ r, parse_playoff_round soup = some r ∧
        r ∈ playoffPatterns.map Prod.snd) := by
  refine ⟨?_, ?_, ?_, ?_⟩
  · intro h
    simp [parse_playoff_round, h]
  · intro t ht hnone
    have h1 := hnone ("first round", "first_round") (by simp [playoffPatterns])
    have h2 := hnone ("conference semifinals", "conf_semis") (by simp [playoffPatterns])
    have h3 := hnone ("conference finals", "conf_finals") (by simp [playoffPatterns])
    have h4 := hnone ("nba finals", "finals") (by simp [playoffPatterns])
    simp [parse_playoff_round, ht, h1, h2, h3, h4]
  · intro r hr
    unfold parse_playoff_round at hr
    match hteq : soup.title with
    | none => rw [hteq] at hr; simp at hr
    | some t =>
        simp only [hteq] at hr
        refine ⟨t, ?_⟩
        by_cases c1 : strHas (strLower t) "first round" = true
        · rw [if_pos c1] at hr
          exact ⟨("first round", "first_round"), rfl,
            by simp [playoffPatterns], by simpa using hr, c1⟩
        rw [if_neg c1] at hr
        by_cases c2 : strHas (strLower t) "conference semifinals" = true
        · rw [if_pos c2] at hr
          exact ⟨("conference semifinals", "conf_semis"), rfl,
            by simp [playoffPatterns], by simpa using hr, c2⟩
        rw [if_neg c2] at hr
        by_cases c3 : strHas (strLower t) "conference finals" = true
        · rw [if_pos c3] at hr
          exact ⟨("conference finals", "conf_finals"), rfl,
            by simp [playoffPatterns], by simpa using hr, c3⟩
        rw [if_neg c3] at hr
        by_cases c4 : strHas (strLower t) "nba finals" = true
        · rw [if_pos c4] at hr
          exact ⟨("nba finals", "finals"), rfl,
            by simp [playoffPatterns], by simpa using hr, c4⟩
        rw [if_neg c4] at hr
        exact absurd hr (by simp)
  · intro t p ht hp hhas
    unfold parse_playoff_round
    simp only [ht]
    by_cases c1 : strHas (strLower t) "first round" = true
    · exact ⟨"first_round", by rw [if_pos c1], by simp [playoffPatterns]⟩
    rw [if_neg c1]
    by_cases c2 : strHas (strLower t) "conference semifinals" = true
    · exact ⟨"conf_semis", by rw [if_pos c2], by simp [playoffPatterns]⟩
    rw [if_neg c2]
    by_cases c3 : strHas (strLower t) "conference finals" = true
    · exact ⟨"conf_finals", by rw [if_pos c3], by simp [playoffPatterns]⟩
    rw [if_neg c3]
    by_cases c4 : strHas (strLower t) "nba finals" = true
    · exact ⟨"finals", by rw [if_pos c4], by simp [playoffPatterns]⟩
    have : p.1 = "first round" ∨ p.1 = "conference semifinals" ∨
        p.1 = "conference finals" ∨ p.1 = "nba finals" := by
      revert hp
      simp [playoffPatterns]
      rintro (h | h | h | h) <;> simp [h]
    rcases this with h | h | h | h <;> rw [h] at hhas
    · exact absurd hhas c1
    · exact absurd hhas c2
    · exact absurd hhas c3
    · exact absurd hhas c4

theorem claim_C9_witness :
    parse_playoff_round soupNoTitle = none ∧
      parse_playoff_round soupPlainTitle = none :=
  ⟨(claim_C9_playoff_round soupNoTitle).1 rfl,
   (claim_C9_playoff_round soupPlainTitle).2.1 "Celtics vs Knicks Box Score" rfl
     (by decide)⟩

/-! ### Helper lemmas for the roster claims -/

theorem matchSlugAt_ne_nil (l r : List Char) (h : matchSlugAt l = some r) :
    r ≠ [] := by
  unfold matchSlugAt at h
  by_cases h9 : listStartsWith l ("/players/".toList) = true
  · rw [if_pos h9] at h
    match hd : l.drop 9 with
    | [] => rw [hd] at h; exact absurd h (by simp)
    | [c] => rw [hd] at h; exact absurd h (by simp)
    | c :: c2 :: rest =>
        rw [hd] at h
        simp only [] at h
        by_cases hc : (isLowerAZ c && c2 = '/') = true
        · rw [if_pos hc] at h
          by_cases hrun : (rest.takeWhile lowerAlnum).isEmpty = true
          · rw [if_pos hrun] at h; exact absurd h (by simp)
          · rw [if_neg hrun] at h
            by_cases hhtml :
                listStartsWith (rest.drop (rest.takeWhile lowerAlnum).length)
                  (".html".toList) = true
            · rw [if_pos hhtml] at h
              have hr := Option.some.inj h
              rw [← hr]
              intro hnil
              rw [hnil] at hrun
              exact hrun rfl
            · rw [if_neg hhtml] at h; exact absurd h (by simp)
        · rw [if_neg hc] at h; exact absurd h (by simp)
  · rw [if_neg h9] at h; exact absurd h (by simp)

theorem searchSlugL_ne_nil (l r : List Char) (h : searchSlugL l = some r) :
    r ≠ [] := by
  induction l with
  | nil => exact absurd h (by simp [searchSlugL])
  | cons c rest ih =>
      unfold searchSlugL at h
      match hm : matchSlugAt (c :: rest) with
      | some m =>
          rw [hm] at h
          have := Option.some.inj h
          rw [← this]
          exact matchSlugAt_ne_nil (c :: rest) m hm
      | none =>
          rw [hm] at h
          exact ih h

theorem searchSlug_ne_empty (s g : String) (h : searchSlug s = some g) :
    g ≠ "" := by
  unfold searchSlug at h
  match hl : searchSlugL s.toList with
  | none => rw [hl] at h; exact absurd h (by simp)
  | some r =>
      rw [hl] at h
      have hg := Option.some.inj h
      rw [← hg]
      have hr := searchSlugL_ne_nil s.toList r hl
      intro hcon
      apply hr
      have := congrArg String.toList hcon
      simpa using this

theorem slugOfCell_from_search (pc : Cell) (g : String)
    (h : slugOfCell pc = some g) : ∃ hr, searchSlug hr = some g := by
  unfold slugOfCell at h
  match hlk : pc.link with
  | none => rw [hlk] at h; exact absurd h (by simp)
  | some lk =>
      simp only [hlk] at h
      match hh : lk.href with
      | none => simp only [hh] at h; exact absurd h (by simp)
      | some u =>
          simp only [hh] at h
          exact ⟨u, h⟩

theorem rosterEntry_slug_eq (tr : BodyRow) (e : RosterEntry)
    (h : rosterEntry tr = some e) :
    ∃ pc, dget (cellsDict tr) "player" = some pc ∧
      slugOfCell pc = some e.slug := by
  simp only [rosterEntry] at h
  match hpc : dget (cellsDict tr) "player" with
  | none => rw [hpc] at h; exact absurd h (by simp)
  | some pc =>
      simp only [hpc] at h
      by_cases ht : pc.text = ""
      · rw [if_pos ht] at h; exact absurd h (by simp)
      · rw [if_neg ht] at h
        match hs : slugOfCell pc with
        | none => simp only [hs] at h; exact absurd h (by simp)
        | some slug =>
            simp only [hs] at h
            refine ⟨pc, rfl, ?_⟩
            rw [hs, ← Option.some.inj h]

/-- C8: every record parse_roster returns carries a non-empty slug, and
a body row from which no slug is extractable (no player cell, no anchor,
no href or no URL-pattern match) contributes nothing to the output of
the filter over the roster body rows. -/
theorem claim_C8_roster_slug (soup : Soup) :
    (∀ e ∈ parse_roster soup, e.slug ≠ "") ∧
    (∀ tr : BodyRow, rowSlug tr = none → rosterEntry tr = none) ∧
    (∀ t trs, findTable soup "roster" = some t → t.tbody = some trs →
      parse_roster soup = trs.filterMap rosterEntry) := by
  refine ⟨?_, ?_, ?_⟩
  · intro e he
    unfold parse_roster at he
    match hf : findTable soup "roster" with
    | none => rw [hf] at he; exact absurd he (by simp)
    | some t =>
        simp only [hf] at he
        match hb : t.tbody with
        | none => simp only [hb] at he; exact absurd he (by simp)
        | some trs =>
            simp only [hb] at he
            obtain ⟨tr, _, htr⟩ := List.mem_filterMap.mp he
            obtain ⟨pc, _, hslug⟩ := rosterEntry_slug_eq tr e htr
            obtain ⟨u, hu⟩ := slugOfCell_from_search pc e.slug hslug
            exact searchSlug_ne_empty u e.slug hu
  · intro tr hnone
    unfold rowSlug at hnone
    simp only [rosterEntry]
    match hpc : dget (cellsDict tr) "player" with
    | none => simp only [hpc]
    | some pc =>
        rw [hpc] at hnone
        simp only [Option.some_bind] at hnone
        simp only [hpc]
        by_cases ht : pc.text = ""
        · rw [if_pos ht]
        · rw [if_neg ht]
          simp only [hnone]
  · intro t trs hf hb
    unfold parse_roster
    rw [hf]
    simp only [hb]

theorem claim_C8_witness :
    rowSlug trNoSlug = none ∧ rosterEntry trNoSlug = none :=
  ⟨by decide,
   (claim_C8_roster_slug soupNoTitle).2.1 trNoSlug (by decide)⟩

/-! ### Helper lemmas for the box-score table loop -/

theorem parseRows_nil (cols : List String) (b : Bool) :
    parseRows cols b [] = [] := rfl

theorem parseRows_sep (cols : List String) (b : Bool) (tr : BodyRow)
    (rest : List BodyRow) (h : tr.isSep = true) :
    parseRows cols b (tr :: rest) = parseRows cols true rest := by
  conv_lhs => unfold parseRows
  rw [if_pos h]

theorem parseRows_skip (cols : List String) (b : Bool) (tr : BodyRow)
    (rest : List BodyRow) (h1 : tr.isSep = false)
    (h2 : rowKeep cols tr = none) :
    parseRows cols b (tr :: rest) = parseRows cols b rest := by
  conv_lhs => unfold parseRows
  rw [if_neg (by simp [h1])]
  simp only [h2]

theorem parseRows_keep (cols : List String) (b : Bool) (tr : BodyRow)
    (rest : List BodyRow) (rd : List (String × String))
    (h1 : tr.isSep = false) (h2 : rowKeep cols tr = some rd) :
    parseRows cols b (tr :: rest) =
      { data := rd, starter := !b } :: parseRows cols b rest := by
  conv_lhs => unfold parseRows
  rw [if_neg (by simp [h1])]
  simp only [h2]

theorem parseRows_append_sepfree (cols : List String) (l1 l2 : List BodyRow)
    (h : ∀ r ∈ l1, r.isSep = false) (b : Bool) :
    parseRows cols b (l1 ++ l2) =
      parseRows cols b l1 ++ parseRows cols b l2 := by
  induction l1 with
  | nil => simp [parseRows_nil]
  | cons tr rest ih =>
      have ht : tr.isSep = false := h tr (List.mem_cons_self tr rest)
      have hrest : ∀ r ∈ rest, r.isSep = false :=
        fun r hr => h r (List.mem_cons_of_mem tr hr)
      rw [List.cons_append]
      match hk : rowKeep cols tr with
      | none =>
          rw [parseRows_skip cols b tr (rest ++ l2) ht hk,
            parseRows_skip cols b tr rest ht hk, ih hrest]
      | some rd =>
          rw [parseRows_keep cols b tr (rest ++ l2) rd ht hk,
            parseRows_keep cols b tr rest rd ht hk, ih hrest,
            List.cons_append]

theorem parseRows_starter_seen (cols : List String) (l : List BodyRow) :
    ∀ p ∈ parseRows cols true l, p.starter = false := by
  induction l with
  | nil => simp [parseRows_nil]
  | cons tr rest ih =>
      intro p hp
      match hsep : tr.isSep with
      | true =>
          rw [parseRows_sep cols true tr rest hsep] at hp
          exact ih p hp
      | false =>
          match hk : rowKeep cols tr with
          | none =>
              rw [parseRows_skip cols true tr rest hsep hk] at hp
              exact ih p hp
          | some rd =>
              rw [parseRows_keep cols true tr rest rd hsep hk] at hp
              rcases List.mem_cons.mp hp with h | h
              · rw [h]
                rfl
              · exact ih p h

theorem parseRows_starter_sepfree (cols : List String) (l : List BodyRow)
    (hsf : ∀ r ∈ l, r.isSep = false) :
    ∀ p ∈ parseRows cols false l, p.starter = true := by
  induction l with
  | nil => simp [parseRows_nil]
  | cons tr rest ih =>
      intro p hp
      have ht : tr.isSep = false := hsf tr (List.mem_cons_self tr rest)
      have hrest : ∀ r ∈ rest, r.isSep = false :=
        fun r hr => hsf r (List.mem_cons_of_mem tr hr)
      match hk : rowKeep cols tr with
      | none =>
          rw [parseRows_skip cols false tr rest ht hk] at hp
          exact ih hrest p hp
      | some rd =>
          rw [parseRows_keep cols false tr rest rd ht hk] at hp
          rcases List.mem_cons.mp hp with h | h
          · rw [h]
            rfl
          · exact ih hrest p h

theorem parseRows_origin (cols : List String) (l : List BodyRow) :
    ∀ (b : Bool) (p : PRow), p ∈ parseRows cols b l →
      ∃ tr, tr ∈ l ∧ tr.isSep = false ∧ rowKeep cols tr = some p.data := by
  induction l with
  | nil => simp [parseRows_nil]
  | cons tr rest ih =>
      intro b p hp
      match hsep : tr.isSep with
      | true =>
          rw [parseRows_sep cols b tr rest hsep] at hp
          obtain ⟨tr2, h1, h2, h3⟩ := ih true p hp
          exact ⟨tr2, List.mem_cons_of_mem tr h1, h2, h3⟩
      | false =>
          match hk : rowKeep cols tr with
          | none =>
              rw [parseRows_skip cols b tr rest hsep hk] at hp
              obtain ⟨tr2, h1, h2, h3⟩ := ih b p hp
              exact ⟨tr2, List.mem_cons_of_mem tr h1, h2, h3⟩
          | some rd =>
              rw [parseRows_keep cols b tr rest rd hsep hk] at hp
              rcases List.mem_cons.mp hp with h | h
              · refine ⟨tr, List.mem_cons_self tr rest, hsep, ?_⟩
                rw [h]
                exact hk
              · obtain ⟨tr2, h1, h2, h3⟩ := ih b p h
                exact ⟨tr2, List.mem_cons_of_mem tr h1, h2, h3⟩

/-- What must hold of a row that rowKeep accepts. -/
theorem rowKeep_some (cols : List String) (tr : BodyRow)
    (rd : List (String × String)) (h : rowKeep cols tr = some rd) :
    hasReason tr = false ∧ rd = rowData cols tr.cells ∧
      (dget (rowData cols tr.cells) "player").getD "" ≠ "" ∧
      strLower ((dget (rowData cols tr.cells) "player").getD "") ≠ "team totals" ∧
      strLower ((dget (rowData cols tr.cells) "player").getD "") ≠ "totals" := by
  unfold rowKeep at h
  by_cases hemp : tr.cells.isEmpty = true
  · rw [if_pos hemp] at h; exact absurd h (by simp)
  · rw [if_neg hemp] at h
    simp only [] at h
    by_cases hreason : hasReason tr = true
    · rw [if_pos hreason] at h; exact absurd h (by simp)
    · rw [if_neg hreason] at h
      by_cases hname :
          ((dget (rowData cols tr.cells) "player").getD "" = "" ||
           strLower ((dget (rowData cols tr.cells) "player").getD "") = "team totals" ||
           strLower ((dget (rowData cols tr.cells) "player").getD "") = "totals") = true
      · rw [if_pos hname] at h; exact absurd h (by simp)
      · rw [if_neg hname] at h
        refine ⟨by simpa using hreason, (Option.some.inj h).symm, ?_, ?_, ?_⟩
        · exact fun hc => hname (by simp [hc])
        · exact fun hc => hname (by simp [hc])
        · exact fun hc => hname (by simp [hc])

/-- A did-not-play or totals row is rejected by rowKeep. -/
theorem rowKeep_none_of_bad (cols : List String) (tr : BodyRow)
    (hbad : hasReason tr = true ∨
      strLower ((dget (rowData cols tr.cells) "player").getD "") = "team totals" ∨
      strLower ((dget (rowData cols tr.cells) "player").getD "") = "totals") :
    rowKeep cols tr = none := by
  unfold rowKeep
  by_cases hemp : tr.cells.isEmpty = true
  · rw [if_pos hemp]
  · rw [if_neg hemp]
    simp only []
    by_cases hreason : hasReason tr = true
    · rw [if_pos hreason]
    · rw [if_neg hreason]
      have : ((dget (rowData cols tr.cells) "player").getD "" = "" ||
          strLower ((dget (rowData cols tr.cells) "player").getD "") = "team totals" ||
          strLower ((dget (rowData cols tr.cells) "player").getD "") = "totals") = true := by
        rcases hbad with h | h | h
        · exact absurd h hreason
        · simp [h]
        · simp [h]
      rw [if_pos this]

/-! ### Helper lemmas for the quarter-score parser -/

theorem mapE_forall2 {α β : Type} (f : α → Except Unit β)
    (l : List α) (vs : List β)
    (h : List.Forall₂ (fun c v => f c = Except.ok v) l vs) :
    mapE f l = Except.ok vs := by
  induction h with
  | nil => rfl
  | cons h1 _ ih => simp only [mapE, h1, ih]

theorem mapSome_dropLast {α : Type} (l : List α) :
    (l.map some).dropLast = l.dropLast.map some := by
  induction l with
  | nil => rfl
  | cons a rest ih =>
      cases rest with
      | nil => rfl
      | cons b rest2 => simp [List.dropLast, ih]

theorem filterMap_id_map_some {α : Type} (l : List α) :
    (l.map some).filterMap id = l := by
  induction l with
  | nil => rfl
  | cons a rest ih => simp [List.filterMap, ih]

/-- C2: with the line_score table present, (i) fewer than two body rows
gives None; (ii) exactly two body rows of exactly four numeric cells
each populate the eight quarter fields positionally and leave both
overtime fields absent; (iii) with trailing overtime cells present (a
5th and 6th cell), the overtime field carries the sum of the cells
between Q4 and the trailing total when it is positive and is absent
when that sum is zero. -/
theorem claim_C2_quarter_scores (soup : Soup) (t : Table)
    (hfind : findTable soup "line_score" = some t) :
    (∀ rows, t.tbody = some rows → rows.length < 2 →
      parse_quarter_scores soup = Except.ok none) ∧
    (∀ (r0 r1 : BodyRow) (a1 a2 a3 a4 b1 b2 b3 b4 : String)
        (v1 v2 v3 v4 w1 w2 w3 w4 : ℤ),
      t.tbody = some [r0, r1] →
      tdTexts r0 = [a1, a2, a3, a4] →
      tdTexts r1 = [b1, b2, b3, b4] →
      safe_int (some a1) = Except.ok (some v1) →
      safe_int (some a2) = Except.ok (some v2) →
      safe_int (some a3) = Except.ok (some v3) →
      safe_int (some a4) = Except.ok (some v4) →
      safe_int (some b1) = Except.ok (some w1) →
      safe_int (some b2) = Except.ok (some w2) →
      safe_int (some b3) = Except.ok (some w3) →
      safe_int (some b4) = Except.ok (some w4) →
      parse_quarter_scores soup = Except.ok (some
        [("away_q1", some v1), ("away_q2", some v2), ("away_q3", some v3),
         ("away_q4", some v4), ("away_ot", none),
         ("home_q1", some w1), ("home_q2", some w2), ("home_q3", some w3),
         ("home_q4", some w4), ("home_ot", none)])) ∧
    (∀ (r0 r1 : BodyRow) (a1 a2 a3 a4 b1 b2 b3 b4 : String)
        (exT : List String) (v1 v2 v3 v4 w1 w2 w3 w4 : ℤ) (exV : List ℤ),
      t.tbody = some [r0, r1] →
      tdTexts r0 = [a1, a2, a3, a4] ++ exT →
      tdTexts r1 = [b1, b2, b3, b4] →
      2 ≤ exT.length →
      List.Forall₂ (fun c v => safe_int (some c) = Except.ok (some v)) exT exV →
      safe_int (some a1) = Except.ok (some v1) →
      safe_int (some a2) = Except.ok (some v2) →
      safe_int (some a3) = Except.ok (some v3) →
      safe_int (some a4) = Except.ok (some v4) →
      safe_int (some b1) = Except.ok (some w1) →
      safe_int (some b2) = Except.ok (some w2) →
      safe_int (some b3) = Except.ok (some w3) →
      safe_int (some b4) = Except.ok (some w4) →
      ∃ qs, parse_quarter_scores soup = Except.ok (some qs) ∧
        ("away_q1", some v1) ∈ qs ∧
        ("away_ot",
          if 0 < (exV.dropLast).sum then some ((exV.dropLast).sum)
          else none) ∈ qs) := by
  refine ⟨?_, ?_, ?_⟩
  · intro rows hb hlen
    unfold parse_quarter_scores
    rw [hfind]
    simp only [hb]
    match rows, hlen with
    | [], _ => rfl
    | [r], _ => rfl
  · intro r0 r1 a1 a2 a3 a4 b1 b2 b3 b4 v1 v2 v3 v4 w1 w2 w3 w4
      hb ht0 ht1 ha1 ha2 ha3 ha4 hb1 hb2 hb3 hb4
    have hm0 : mapE (fun c => safe_int (some c)) (tdTexts r0) =
        Except.ok [some v1, some v2, some v3, some v4] := by
      rw [ht0]
      exact mapE_forall2 _ _ _
        (List.Forall₂.cons ha1 (List.Forall₂.cons ha2
          (List.Forall₂.cons ha3 (List.Forall₂.cons ha4 List.Forall₂.nil))))
    have hm1 : mapE (fun c => safe_int (some c)) (tdTexts r1) =
        Except.ok [some w1, some w2, some w3, some w4] := by
      rw [ht1]
      exact mapE_forall2 _ _ _
        (List.Forall₂.cons hb1 (List.Forall₂.cons hb2
          (List.Forall₂.cons hb3 (List.Forall₂.cons hb4 List.Forall₂.nil))))
    unfold parse_quarter_scores
    rw [hfind]
    simp only [hb, hm0, hm1]
    rfl
  · intro r0 r1 a1 a2 a3 a4 b1 b2 b3 b4 exT v1 v2 v3 v4 w1 w2 w3 w4 exV
      hb ht0 ht1 hexlen hex ha1 ha2 ha3 ha4 hb1 hb2 hb3 hb4
    have hvlen : exT.length = exV.length := List.Forall₂.length_eq hex
    have hex' : List.Forall₂ (fun c v => safe_int (some c) = Except.ok v)
        exT (exV.map some) :=
      List.forall₂_map_right_iff.mpr hex
    have hall : List.Forall₂ (fun c v => safe_int (some c) = Except.ok v)
        ([a1, a2, a3, a4] ++ exT)
        ([some v1, some v2, some v3, some v4] ++ exV.map some) :=
      List.Forall₂.cons ha1 (List.Forall₂.cons ha2
        (List.Forall₂.cons ha3 (List.Forall₂.cons ha4 hex')))
    have hm0 : mapE (fun c => safe_int (some c)) (tdTexts r0) =
        Except.ok ([some v1, some v2, some v3, some v4] ++ exV.map some) := by
      rw [ht0]
      exact mapE_forall2 _ _ _ hall
    have hm1 : mapE (fun c => safe_int (some c)) (tdTexts r1) =
        Except.ok [some w1, some w2, some w3, some w4] := by
      rw [ht1]
      exact mapE_forall2 _ _ _
        (List.Forall₂.cons hb1 (List.Forall₂.cons hb2
          (List.Forall₂.cons hb3 (List.Forall₂.cons hb4 List.Forall₂.nil))))
    refine ⟨prefixEntries "away"
        ([some v1, some v2, some v3, some v4] ++ exV.map some) ++
      prefixEntries "home" [some w1, some w2, some w3, some w4], ?_, ?_, ?_⟩
    · unfold parse_quarter_scores
      rw [hfind]
      simp only [hb, hm0, hm1]
    · apply List.mem_append_left
      show ("away_q1", some v1) ∈ prefixEntries "away" _
      unfold prefixEntries
      exact List.mem_cons_self _ _
    · apply List.mem_append_left
      have hcond : 5 <
          ([some v1, some v2, some v3, some v4] ++ exV.map some).length := by
        simp only [List.length_append, List.length_map, List.length_cons]
        omega
      have hdrop :
          (([some v1, some v2, some v3, some v4] ++ exV.map some).drop 4) =
            exV.map some := by
        simp
      have hot :
          (if 5 < ([some v1, some v2, some v3, some v4] ++ exV.map some).length then
            (let tot :=
              (((([some v1, some v2, some v3, some v4] ++ exV.map some).drop 4).dropLast).filterMap id).sum
             if 0 < tot then some tot else none)
          else none) =
            (if 0 < (exV.dropLast).sum then some ((exV.dropLast).sum) else none) := by
        rw [if_pos hcond, hdrop, mapSome_dropLast, filterMap_id_map_some]
      unfold prefixEntries
      rw [← hot]
      simp only [List.mem_cons]
      exact Or.inr (Or.inr (Or.inr (Or.inr (Or.inl rfl))))

theorem claim_C2_witness :
    parse_quarter_scores wSoupLs1 = Except.ok none ∧
    parse_quarter_scores wSoupLs2 = Except.ok (some
      [("away_q1", some 25), ("away_q2", some 26), ("away_q3", some 27),
       ("away_q4", some 28), ("away_ot", none),
       ("home_q1", some 30), ("home_q2", some 20), ("home_q3", some 10),
       ("home_q4", some 40), ("home_ot", none)]) :=
  ⟨(claim_C2_quarter_scores wSoupLs1 _ rfl).1 _ rfl (by decide),
   (claim_C2_quarter_scores wSoupLs2 _ rfl).2.1
     (wLsRow ["25", "26", "27", "28"]) (wLsRow ["30", "20", "10", "40"])
     "25" "26" "27" "28" "30" "20" "10" "40"
     25 26 27 28 30 20 10 40
     rfl rfl rfl rfl rfl rfl rfl rfl rfl rfl rfl⟩

/-- C3: on a body split as pre ++ separator :: post (the separator
marked by the thead class, none before it), parse_box_score_table
returns the rows of pre parsed with the flag unset followed by the rows
of post parsed with the flag set; every output row from pre is tagged
starter = true and every one from post starter = false; and every
output row is produced by a non-separator body row, so the separator
itself never appears. -/
theorem claim_C3_starter_split (soup : Soup) (tid : String) (t : Table)
    (hrows : List (List Cell)) (hrow : List Cell)
    (pre post : List BodyRow) (sep : BodyRow)
    (hfind : findTable soup tid = some t)
    (hthead : t.thead = some hrows)
    (hlast : hrows.getLast? = some hrow)
    (hbody : t.tbody = some (pre ++ sep :: post))
    (hsep : sep.isSep = true)
    (hpre : ∀ r ∈ pre, r.isSep = false) :
    parse_box_score_table soup tid =
      Except.ok (parseRows (headerCols hrow) false pre ++
        parseRows (headerCols hrow) true post) ∧
    (∀ p ∈ parseRows (headerCols hrow) false pre, p.starter = true) ∧
    (∀ p ∈ parseRows (headerCols hrow) true post, p.starter = false) ∧
    (∀ p ∈ parseRows (headerCols hrow) false pre ++
        parseRows (headerCols hrow) true post,
      ∃ tr, tr ∈ pre ++ sep :: post ∧ tr.isSep = false ∧
        rowKeep (headerCols hrow) tr = some p.data) := by
  have hsplit : parseRows (headerCols hrow) false (pre ++ sep :: post) =
      parseRows (headerCols hrow) false pre ++
        parseRows (headerCols hrow) true post := by
    rw [parseRows_append_sepfree (headerCols hrow) pre (sep :: post) hpre false,
      parseRows_sep (headerCols hrow) false sep post hsep]
  refine ⟨?_, parseRows_starter_sepfree (headerCols hrow) pre hpre,
    parseRows_starter_seen (headerCols hrow) post, ?_⟩
  · unfold parse_box_score_table
    rw [hfind]
    simp only [hthead, hlast, hbody]
    rw [hsplit]
  · intro p hp
    rw [← hsplit] at hp
    exact parseRows_origin (headerCols hrow) (pre ++ sep :: post) false p hp

theorem claim_C3_witness :
    parse_box_score_table wSoupBox "box-AAA-game-basic" =
      Except.ok (parseRows (headerCols wHeader) false [wRowA] ++
        parseRows (headerCols wHeader) true [wRowB, wRowDNP, wRowTot]) :=
  (claim_C3_starter_split wSoupBox "box-AAA-game-basic" wBasicTable
    [wHeader] wHeader [wRowA] [wRowB, wRowDNP, wRowTot] wRowSep
    rfl rfl rfl rfl rfl (by decide)).1

/-- C4: parse_box_score_table returns the parsed body rows, in which
every output row comes from a body row with no reason cell and a player
name that is neither empty nor a totals label; and a non-separator row
carrying a reason cell or a totals player name is dropped by the loop. -/
theorem claim_C4_skip_reason_totals (soup : Soup) (tid : String) (t : Table)
    (hrows : List (List Cell)) (hrow : List Cell) (trs : List BodyRow)
    (hfind : findTable soup tid = some t)
    (hthead : t.thead = some hrows)
    (hlast : hrows.getLast? = some hrow)
    (hbody : t.tbody = some trs) :
    parse_box_score_table soup tid =
      Except.ok (parseRows (headerCols hrow) false trs) ∧
    (∀ p ∈ parseRows (headerCols hrow) false trs,
      ∃ tr, tr ∈ trs ∧ hasReason tr = false ∧
        (dget (rowData (headerCols hrow) tr.cells) "player").getD "" ≠ "" ∧
        strLower ((dget (rowData (headerCols hrow) tr.cells) "player").getD "") ≠
          "team totals" ∧
        strLower ((dget (rowData (headerCols hrow) tr.cells) "player").getD "") ≠
          "totals" ∧
        p.data = rowData (headerCols hrow) tr.cells) ∧
    (∀ (b : Bool) (tr : BodyRow) (rest : List BodyRow),
      tr.isSep = false →
      (hasReason tr = true ∨
        strLower ((dget (rowData (headerCols hrow) tr.cells) "player").getD "") =
          "team totals" ∨
        strLower ((dget (rowData (headerCols hrow) tr.cells) "player").getD "") =
          "totals") →
      parseRows (headerCols hrow) b (tr :: rest) =
        parseRows (headerCols hrow) b rest) := by
  refine ⟨?_, ?_, ?_⟩
  · unfold parse_box_score_table
    rw [hfind]
    simp only [hthead, hlast, hbody]
  · intro p hp
    obtain ⟨tr, h1, h2, h3⟩ :=
      parseRows_origin (headerCols hrow) trs false p hp
    obtain ⟨hr, hrd, hn1, hn2, hn3⟩ := rowKeep_some (headerCols hrow) tr p.data h3
    exact ⟨tr, h1, hr, hn1, hn2, hn3, hrd⟩
  · intro b tr rest hns hbad
    exact parseRows_skip (headerCols hrow) b tr rest hns
      (rowKeep_none_of_bad (headerCols hrow) tr hbad)

theorem claim_C4_witness :
    parse_box_score_table wSoupBox "box-AAA-game-basic" =
      Except.ok (parseRows (headerCols wHeader) false
        [wRowA, wRowSep, wRowB, wRowDNP, wRowTot]) ∧
    parseRows (headerCols wHeader) false [wRowDNP] =
      parseRows (headerCols wHeader) false [] ∧
    parseRows (headerCols wHeader) false [wRowTot] =
      parseRows (headerCols wHeader) false [] :=
  ⟨(claim_C4_skip_reason_totals wSoupBox "box-AAA-game-basic" wBasicTable
      [wHeader] wHeader [wRowA, wRowSep, wRowB, wRowDNP, wRowTot]
      rfl rfl rfl rfl).1,
   (claim_C4_skip_reason_totals wSoupBox "box-AAA-game-basic" wBasicTable
      [wHeader] wHeader [wRowA, wRowSep, wRowB, wRowDNP, wRowTot]
      rfl rfl rfl rfl).2.2 false wRowDNP [] rfl (Or.inl (by decide)),
   (claim_C4_skip_reason_totals wSoupBox "box-AAA-game-basic" wBasicTable
      [wHeader] wHeader [wRowA, wRowSep, wRowB, wRowDNP, wRowTot]
      rfl rfl rfl rfl).2.2 false wRowTot [] rfl (Or.inr (Or.inl (by decide)))⟩

/-- C7: a non-200 response makes fetch_game_page return no page, and
scrape_game on a failed fetch returns False having attempted no write
at all (no box-score upsert, no games update). -/
theorem claim_C7_fetch_failure (status : ℕ) (page : Soup)
    (hstatus : status ≠ 200)
    (game_id away_team_id home_team_id away_abbrev home_abbrev : String)
    (upsertOk : Bool) :
    fetch_game_page status page = none ∧
    scrape_game (fetch_game_page status page) game_id away_team_id
      home_team_id away_abbrev home_abbrev upsertOk =
        Except.ok (false, []) := by
  have hf : fetch_game_page status page = none := by
    unfold fetch_game_page
    rw [if_neg hstatus]
  refine ⟨hf, ?_⟩
  rw [hf]
  rfl

theorem claim_C7_witness :
    fetch_game_page 404 soupNoTitle = none ∧
    scrape_game (fetch_game_page 404 soupNoTitle) "g" "ta" "th" "BOS" "NYK"
      true = Except.ok (false, []) :=
  claim_C7_fetch_failure 404 soupNoTitle (by decide) "g" "ta" "th" "BOS" "NYK"
    true

/-! ### Helper lemmas for the games-update claim -/

theorem mem_dinsert {α : Type} (d : List (String × α)) (kk : String) (v : α)
    (k : String) (x : α) (h : (k, x) ∈ dinsert d kk v) :
    (k, x) ∈ d ∨ (k = kk ∧ x = v) := by
  unfold dinsert at h
  by_cases hc : d.any (fun p => p.1 = kk) = true
  · rw [if_pos hc] at h
    obtain ⟨p, hp, hpe⟩ := List.mem_map.mp h
    by_cases hk : p.1 = kk
    · rw [if_pos hk] at hpe
      right
      exact ⟨(congrArg Prod.fst hpe).symm, (congrArg Prod.snd hpe).symm⟩
    · rw [if_neg hk] at hpe
      left
      rw [← hpe]
      exact hp
  · rw [if_neg hc] at h
    rcases List.mem_append.mp h with h1 | h1
    · exact Or.inl h1
    · right
      have := List.mem_singleton.mp h1
      exact ⟨congrArg Prod.fst this, congrArg Prod.snd this⟩

theorem mem_qualifyQuarter (qd : Option (List (String × Option ℤ)))
    (k : String) (y : GVal) (h : (k, y) ∈ qualifyQuarter qd) :
    ∃ qs v, qd = some qs ∧ y = GVal.gInt v ∧ (k, some v) ∈ qs := by
  match qd with
  | none => exact absurd h (by simp [qualifyQuarter])
  | some qs =>
      simp only [qualifyQuarter] at h
      obtain ⟨kv, hkv, hkve⟩ := List.mem_filterMap.mp h
      match hv : kv.2 with
      | none => rw [hv] at hkve; exact absurd hkve (by simp)
      | some v =>
          rw [hv] at hkve
          simp only [Option.map_some'] at hkve
          have hk1 : kv.1 = k := congrArg Prod.fst (Option.some.inj hkve)
          have hk2 : GVal.gInt v = y := congrArg Prod.snd (Option.some.inj hkve)
          refine ⟨qs, v, rfl, hk2.symm, ?_⟩
          rw [← hk1, ← hv]
          exact hkv

theorem mem_withPR (u : List (String × GVal)) (pr : Option String)
    (k : String) (y : GVal) (h : (k, y) ∈ withPR u pr) :
    (k, y) ∈ u ∨ (k = "playoff_round" ∧ ∃ r, pr = some r ∧ y = GVal.gStr r) := by
  match pr with
  | none => exact Or.inl h
  | some r =>
      simp only [withPR] at h
      rcases mem_dinsert _ _ _ _ _ h with h1 | h1
      · exact Or.inl h1
      · exact Or.inr ⟨h1.1, r, rfl, h1.2⟩

theorem mem_withArena (u : List (String × GVal)) (ar : Option String)
    (k : String) (y : GVal) (h : (k, y) ∈ withArena u ar) :
    (k, y) ∈ u ∨ (k = "arena" ∧ ∃ a, ar = some a ∧ a ≠ "" ∧ y = GVal.gStr a) := by
  match ar with
  | none => exact Or.inl h
  | some a =>
      simp only [withArena] at h
      by_cases ha : a = ""
      · rw [if_pos ha] at h
        exact Or.inl h
      · rw [if_neg ha] at h
        rcases mem_dinsert _ _ _ _ _ h with h1 | h1
        · exact Or.inl h1
        · exact Or.inr ⟨h1.1, a, rfl, ha, h1.2⟩

theorem mem_withAtt (u : List (String × GVal)) (att : Option ℤ)
    (k : String) (y : GVal) (h : (k, y) ∈ withAtt u att) :
    (k, y) ∈ u ∨ (k = "attendance" ∧ ∃ n, att = some n ∧ n ≠ 0 ∧ y = GVal.gInt n) := by
  match att with
  | none => exact Or.inl h
  | some n =>
      simp only [withAtt] at h
      by_cases hn : n = 0
      · rw [if_pos hn] at h
        exact Or.inl h
      · rw [if_neg hn] at h
        rcases mem_dinsert _ _ _ _ _ h with h1 | h1
        · exact Or.inl h1
        · exact Or.inr ⟨h1.1, n, rfl, hn, h1.2⟩

theorem mem_updateFromParses (qd : Option (List (String × Option ℤ)))
    (pr : Option String) (ar : Option String) (att : Option ℤ)
    (k : String) (x : GVal)
    (h : (k, x) ∈ updateFromParses qd pr ar att) :
    (∃ qs v, qd = some qs ∧ x = GVal.gInt v ∧ (k, some v) ∈ qs) ∨
    (k = "playoff_round" ∧ ∃ r, pr = some r ∧ x = GVal.gStr r) ∨
    (k = "arena" ∧ ∃ a, ar = some a ∧ a ≠ "" ∧ x = GVal.gStr a) ∨
    (k = "attendance" ∧ ∃ n, att = some n ∧ n ≠ 0 ∧ x = GVal.gInt n) := by
  unfold updateFromParses at h
  rcases mem_withAtt _ _ _ _ h with h1 | h1
  · rcases mem_withArena _ _ _ _ h1 with h2 | h2
    · rcases mem_withPR _ _ _ _ h2 with h3 | h3
      · exact Or.inl (mem_qualifyQuarter _ _ _ h3)
      · exact Or.inr (Or.inl h3)
    · exact Or.inr (Or.inr (Or.inl h2))
  · exact Or.inr (Or.inr (Or.inr h1))

/-- A non-None quarter-score result always has the two-prefix shape. -/
theorem pqs_shape (soup : Soup) (qs : List (String × Option ℤ))
    (h : parse_quarter_scores soup = Except.ok (some qs)) :
    ∃ s1 s2, qs = prefixEntries "away" s1 ++ prefixEntries "home" s2 := by
  unfold parse_quarter_scores at h
  match hf : findTable soup "line_score" with
  | none => simp only [hf] at h; exact absurd h (by simp)
  | some t =>
      simp only [hf] at h
      match hb : t.tbody with
      | none => simp only [hb] at h; exact absurd h (by simp)
      | some rows =>
          simp only [hb] at h
          match rows with
          | [] => simp at h
          | [r] => simp at h
          | r0 :: r1 :: rest =>
              simp only [] at h
              match hm0 : mapE (fun c => safe_int (some c)) (tdTexts r0) with
              | Except.error e => simp only [hm0] at h; exact absurd h (by simp)
              | Except.ok s1 =>
                  simp only [hm0] at h
                  match hm1 : mapE (fun c => safe_int (some c)) (tdTexts r1) with
                  | Except.error e => simp only [hm1] at h; exact absurd h (by simp)
                  | Except.ok s2 =>
                      simp only [hm1] at h
                      exact ⟨s1, s2, (Option.some.inj (Except.ok.inj h)).symm⟩

/-- The keys of a quarter-score result are exactly the ten fixed keys. -/
theorem qs_keys (s1 s2 : List (Option ℤ)) :
    (prefixEntries "away" s1 ++ prefixEntries "home" s2).map Prod.fst =
      quarterKeys := rfl

/-- Entries of a pair list with distinct keys agree on shared keys. -/
theorem nodupKeys_val_eq {α : Type} (l : List (String × α))
    (hn : (l.map Prod.fst).Nodup) (k : String) (a b : α)
    (ha : (k, a) ∈ l) (hb : (k, b) ∈ l) : a = b := by
  induction l with
  | nil => exact absurd ha (by simp)
  | cons p rest ih =>
      simp only [List.map_cons, List.nodup_cons] at hn
      rcases List.mem_cons.mp ha with h1 | h1
      · rcases List.mem_cons.mp hb with h2 | h2
        · exact congrArg Prod.snd (h1.trans h2.symm)
        · exfalso
          apply hn.1
          have : p.1 = k := (congrArg Prod.fst h1).symm
          rw [this]
          exact List.mem_map_of_mem Prod.fst h2
      · rcases List.mem_cons.mp hb with h2 | h2
        · exfalso
          apply hn.1
          have : p.1 = k := (congrArg Prod.fst h2).symm
          rw [this]
          exact List.mem_map_of_mem Prod.fst h1
        · exact ih hn.2 h1 h2

/-- buildUpdate succeeds exactly when both raising parsers succeed, and
then produces the assembled update dict. -/
theorem buildUpdate_ok (soup : Soup) (u : List (String × GVal))
    (h : buildUpdate soup = Except.ok u) :
    ∃ qd ar att, parse_quarter_scores soup = Except.ok qd ∧
      parse_arena_attendance soup = Except.ok (ar, att) ∧
      u = updateFromParses qd (parse_playoff_round soup) ar att := by
  unfold buildUpdate at h
  match hq : parse_quarter_scores soup with
  | Except.error e => simp only [hq] at h; exact absurd h (by simp)
  | Except.ok qd =>
      simp only [hq] at h
      match ha : parse_arena_attendance soup with
      | Except.error e => simp only [ha] at h; exact absurd h (by simp)
      | Except.ok aa =>
          simp only [ha] at h
          obtain ⟨ar1, att1⟩ := aa
          exact ⟨qd, ar1, att1, rfl, rfl, (Except.ok.inj h).symm⟩

/-- C10: whenever scrape_game issues a games update, the update dict is
exactly the assembled one and it is non-empty; every quarter-score key
it carries maps to a present (non-None) parsed value; a quarter-score
key parsed as None is absent from it; arena appears only as the parsed
non-empty arena string, attendance only as the parsed non-zero count,
and playoff_round only as a matched round. -/
theorem claim_C10_update_filtered (soup : Soup)
    (game_id away_team_id home_team_id away_abbrev home_abbrev : String)
    (upsertOk flag : Bool) (writes : List WriteOp)
    (u : List (String × GVal))
    (hrun : scrape_game (some soup) game_id away_team_id home_team_id
      away_abbrev home_abbrev upsertOk = Except.ok (flag, writes))
    (hmem : WriteOp.updateGames u ∈ writes) :
    buildUpdate soup = Except.ok u ∧ u ≠ [] ∧
    (∀ k v, (k, GVal.gInt v) ∈ u → k ∈ quarterKeys →
      ∃ qs, parse_quarter_scores soup = Except.ok (some qs) ∧
        (k, some v) ∈ qs) ∧
    (∀ qs k, parse_quarter_scores soup = Except.ok (some qs) →
      (k, (none : Option ℤ)) ∈ qs → ∀ w, (k, w) ∉ u) ∧
    (∀ x, ("arena", x) ∈ u →
      ∃ a att, parse_arena_attendance soup = Except.ok (some a, att) ∧
        x = GVal.gStr a ∧ a ≠ "") ∧
    (∀ x, ("attendance", x) ∈ u →
      ∃ ar n, parse_arena_attendance soup = Except.ok (ar, some n) ∧
        x = GVal.gInt n ∧ n ≠ 0) ∧
    (∀ x, ("playoff_round", x) ∈ u →
      ∃ r, parse_playoff_round soup = some r ∧ x = GVal.gStr r) := by
  unfold scrape_game at hrun
  simp only [] at hrun
  match hbb : buildBoxRows soup game_id away_team_id home_team_id
      (to_bref away_abbrev) (to_bref home_abbrev) with
  | Except.error e => simp only [hbb] at hrun; exact absurd hrun (by simp)
  | Except.ok box_rows =>
      simp only [hbb] at hrun
      by_cases hbe : box_rows.isEmpty = true
      · rw [if_pos hbe] at hrun
        have hw : ([] : List WriteOp) = writes :=
          congrArg Prod.snd (Except.ok.inj hrun)
        rw [← hw] at hmem
        exact absurd hmem (by simp)
      · rw [if_neg hbe] at hrun
        by_cases hup : upsertOk = false
        · rw [if_pos hup] at hrun
          have hw : [WriteOp.upsertBox box_rows] = writes :=
            congrArg Prod.snd (Except.ok.inj hrun)
          rw [← hw] at hmem
          have := List.mem_singleton.mp hmem
          exact absurd this (by simp)
        · rw [if_neg hup] at hrun
          match hbu : buildUpdate soup with
          | Except.error e => simp only [hbu] at hrun; exact absurd hrun (by simp)
          | Except.ok ud =>
              simp only [hbu] at hrun
              by_cases hue : ud.isEmpty = true
              · rw [if_pos hue] at hrun
                have hw : [WriteOp.upsertBox box_rows] = writes :=
                  congrArg Prod.snd (Except.ok.inj hrun)
                rw [← hw] at hmem
                have := List.mem_singleton.mp hmem
                exact absurd this (by simp)
              · rw [if_neg hue] at hrun
                have hw : [WriteOp.upsertBox box_rows, WriteOp.updateGames ud] =
                    writes :=
                  congrArg Prod.snd (Except.ok.inj hrun)
                rw [← hw] at hmem
                have hud : u = ud := by
                  rcases List.mem_cons.mp hmem with h1 | h1
                  · exact absurd h1 (by simp)
                  · exact WriteOp.updateGames.inj (List.mem_singleton.mp h1)
                subst hud
                obtain ⟨qd, ar, att, hq, ha, hueq⟩ := buildUpdate_ok soup u hbu
                have hne : u ≠ [] := by
                  intro hnil
                  rw [hnil] at hue
                  exact hue rfl
                refine ⟨rfl, hne, ?_, ?_, ?_, ?_, ?_⟩
                · intro k v hin hkq
                  rw [hueq] at hin
                  rcases mem_updateFromParses qd (parse_playoff_round soup)
                      ar att k (GVal.gInt v) hin with hc | hc | hc | hc
                  · obtain ⟨qs, v2, hqd, hxv, hmemq⟩ := hc
                    have hvv : v2 = v := (GVal.gInt.inj hxv).symm
                    rw [hqd] at hq
                    rw [hvv] at hmemq
                    exact ⟨qs, hq, hmemq⟩
                  · rw [hc.1] at hkq
                    exact absurd hkq (by decide)
                  · obtain ⟨a, _, _, hxx⟩ := hc.2
                    exact absurd hxx (by simp)
                  · rw [hc.1] at hkq
                    exact absurd hkq (by decide)
                · intro qs k hq2 hnone w hwin
                  have hqd2 : qd = some qs := Except.ok.inj (hq.symm.trans hq2)
                  obtain ⟨s1, s2, hshape⟩ := pqs_shape soup qs hq2
                  have hnodup : (qs.map Prod.fst).Nodup := by
                    rw [hshape, qs_keys]
                    decide
                  have hkq : k ∈ quarterKeys := by
                    rw [← qs_keys s1 s2, ← hshape]
                    exact List.mem_map_of_mem Prod.fst hnone
                  rw [hueq] at hwin
                  rcases mem_updateFromParses qd (parse_playoff_round soup)
                      ar att k w hwin with hc | hc | hc | hc
                  · obtain ⟨qs2, v, hqd', hxv, hmemq⟩ := hc
                    have hqq : qs2 = qs := Option.some.inj (hqd'.symm.trans hqd2)
                    rw [hqq] at hmemq
                    have : (none : Option ℤ) = some v :=
                      nodupKeys_val_eq qs hnodup k none (some v) hnone hmemq
                    exact absurd this (by simp)
                  · rw [hc.1] at hkq
                    exact absurd hkq (by decide)
                  · rw [hc.1] at hkq
                    exact absurd hkq (by decide)
                  · rw [hc.1] at hkq
                    exact absurd hkq (by decide)
                · intro x hin
                  rw [hueq] at hin
                  rcases mem_updateFromParses qd (parse_playoff_round soup)
                      ar att "arena" x hin with hc | hc | hc | hc
                  · obtain ⟨qs, v, hqd, _, hmemq⟩ := hc
                    rw [hqd] at hq
                    obtain ⟨s1, s2, hshape⟩ := pqs_shape soup qs hq
                    have : "arena" ∈ quarterKeys := by
                      rw [← qs_keys s1 s2, ← hshape]
                      exact List.mem_map_of_mem Prod.fst hmemq
                    exact absurd this (by decide)
                  · exact absurd hc.1 (by decide)
                  · obtain ⟨a, hare, hane, hxa⟩ := hc.2
                    rw [hare] at ha
                    exact ⟨a, att, ha, hxa, hane⟩
                  · exact absurd hc.1 (by decide)
                · intro x hin
                  rw [hueq] at hin
                  rcases mem_updateFromParses qd (parse_playoff_round soup)
                      ar att "attendance" x hin with hc | hc | hc | hc
                  · obtain ⟨qs, v, hqd, _, hmemq⟩ := hc
                    rw [hqd] at hq
                    obtain ⟨s1, s2, hshape⟩ := pqs_shape soup qs hq
                    have : "attendance" ∈ quarterKeys := by
                      rw [← qs_keys s1 s2, ← hshape]
                      exact List.mem_map_of_mem Prod.fst hmemq
                    exact absurd this (by decide)
                  · exact absurd hc.1 (by decide)
                  · exact absurd hc.1 (by decide)
                  · obtain ⟨n, hatte, hnne, hxn⟩ := hc.2
                    rw [hatte] at ha
                    exact ⟨ar, n, ha, hxn, hnne⟩
                · intro x hin
                  rw [hueq] at hin
                  rcases mem_updateFromParses qd (parse_playoff_round soup)
                      ar att "playoff_round" x hin with hc | hc | hc | hc
                  · obtain ⟨qs, v, hqd, _, hmemq⟩ := hc
                    rw [hqd] at hq
                    obtain ⟨s1, s2, hshape⟩ := pqs_shape soup qs hq
                    have : "playoff_round" ∈ quarterKeys := by
                      rw [← qs_keys s1 s2, ← hshape]
                      exact List.mem_map_of_mem Prod.fst hmemq
                    exact absurd this (by decide)
                  · obtain ⟨r, hpre, hxr⟩ := hc.2
                    exact ⟨r, hpre, hxr⟩
                  · exact absurd hc.1 (by decide)
                  · exact absurd hc.1 (by decide)

theorem claim_C10_witness :
    scrape_game (some wSoupGame) "g1" "ta" "th" "AAA" "BBB" true =
      Except.ok (true, wWrites) ∧ wUpdate ≠ [] :=
  ⟨rfl,
   (claim_C10_update_filtered wSoupGame "g1" "ta" "th" "AAA" "BBB" true
      true wWrites wUpdate rfl (by decide)).2.1⟩

end BRef